import Mathlib

/-!
Verification development for the GitHub release/file sync tool
(`download_form_github.py`).  The definitions below are a shallow
embedding of the script's version-aware sync and safe-replace engine:

* glob matching mirrors Python's `fnmatch.fnmatch` (shell-style
  `*`, `?`, `[seq]`, `[!seq]` over the whole name);
* `handle_assets` mirrors the inner function of
  `download_releases_from_github` (lines 281-300): the outer loop over
  assets with an inner pattern loop that downloads on the first match
  and then breaks;
* `download_releases_from_github` mirrors the decision logic of
  lines 302-339: sentinel no-digit versions, the stable branch against
  `/releases/latest`, and the non-stable branch against `releases[0]`;
  its observable effects are the ordered list of download calls with
  their (ignored) success results, and the optional config version
  write performed by `update_version_in_config`;
* `prepare_for_write` mirrors the pre-download phase of
  `download_and_extract_file` (lines 634-648) together with
  `is_file_locked` and `rename_file`;
* the archive-merge model mirrors `extract_file` (lines 591-632) with
  `move_and_handle_conflict`, and `extract_file_effects` tracks the
  scratch-directory side effects of every exit path of `extract_file`.
-/

/-- Membership of a character in a parsed bracket class, with `a-b`
ranges as in `fnmatch.translate`; a `-` at the end of the class is a
literal. -/
def inClass : List Char → Char → Bool
  | a :: '-' :: b :: rest, c =>
    (decide (a.toNat ≤ c.toNat) && decide (c.toNat ≤ b.toNat)) || inClass rest c
  | a :: rest, c => (a == c) || inClass rest c
  | [], _ => false

/-- Collect the body of a bracket class up to the closing bracket;
returns `none` when the class is never closed (then the opening
bracket is a literal, as in `fnmatch`). -/
def classBody (acc : List Char) : List Char → Option (List Char × List Char)
  | [] => none
  | ']' :: rest => some (acc.reverse, rest)
  | c :: rest => classBody (c :: acc) rest

/-- Parse a bracket class after the opening bracket: an optional
leading `!` negates, and a closing bracket as the first content
character is a literal, as in `fnmatch.translate`. -/
def parseClass (cs : List Char) : Option (Bool × List Char × List Char) :=
  match cs with
  | '!' :: ']' :: rest => (classBody [']'] rest).map (fun p => (true, p.1, p.2))
  | '!' :: rest => (classBody [] rest).map (fun p => (true, p.1, p.2))
  | ']' :: rest => (classBody [']'] rest).map (fun p => (false, p.1, p.2))
  | _ => (classBody [] cs).map (fun p => (false, p.1, p.2))

/-- Fuelled whole-name glob matcher (the fuel only bounds the
recursion; `fnmatch` below supplies enough fuel for every input). -/
def globMatchF : Nat → List Char → List Char → Bool
  | 0, _, _ => false
  | _ + 1, [], [] => true
  | _ + 1, [], _ :: _ => false
  | f + 1, '*' :: ps, s =>
    globMatchF f ps s ||
      (match s with
       | [] => false
       | _ :: t => globMatchF f ('*' :: ps) t)
  | f + 1, '?' :: ps, s =>
    (match s with
     | [] => false
     | _ :: t => globMatchF f ps t)
  | f + 1, '[' :: ps, s =>
    (match parseClass ps with
     | some (neg, cls, rest) =>
       (match s with
        | [] => false
        | c :: t => (inClass cls c != neg) && globMatchF f rest t)
     | none =>
       (match s with
        | [] => false
        | c :: t => (c == '[') && globMatchF f ps t))
  | f + 1, p :: ps, s =>
    (match s with
     | [] => false
     | c :: t => (p == c) && globMatchF f ps t)

/-- Model of Python's `fnmatch.fnmatch(name, pattern)` on a POSIX
host (where `os.path.normcase` is the identity): shell-style matching
of the whole name. -/
def fnmatch (name : String) (pat : String) : Bool :=
  globMatchF (pat.data.length + name.data.length + 1) pat.data name.data

/-- A release asset as the script reads it from the GitHub API:
`asset['name']` and `asset['browser_download_url']`. -/
structure RemoteAsset where
  name : String
  browser_download_url : String
deriving DecidableEq

/-- A release as the script reads it: `tag_name` and `assets`. -/
structure RemoteRelease where
  tag_name : String
  assets : List RemoteAsset
deriving DecidableEq

/-- The inner pattern loop of `handle_assets` (lines 292-296): try the
patterns in order, download and break on the first match.  Its
observable outcome is whether any pattern matched. -/
def inner_match (name : String) : List String → Bool
  | [] => false
  | p :: ps => if fnmatch name p then true else inner_match name ps

/-- The asset loop of `handle_assets` when a non-empty pattern list is
configured (lines 291-296): each asset is downloaded at most once, at
its first matching pattern. -/
def handle_assets_loop (fs : List String) : List RemoteAsset → List RemoteAsset
  | [] => []
  | a :: rest =>
    if inner_match a.name fs then a :: handle_assets_loop fs rest
    else handle_assets_loop fs rest

/-- Model of `handle_assets` (lines 281-300): returns, in order, the
assets passed to `download_and_extract_file`.  Python's `if files:` is
false both for `None` and for an empty list, in which case every asset
is downloaded. -/
def handle_assets (files : Option (List String)) (assets : List RemoteAsset) :
    List RemoteAsset :=
  match files with
  | none => assets
  | some [] => assets
  | some (p :: ps) => handle_assets_loop (p :: ps) assets

/-- Model of `any(char.isdigit() for char in version)` (line 304). -/
def has_digit (s : String) : Bool :=
  s.data.any Char.isDigit

/-- Observable outcome of one run of `download_releases_from_github`:
the ordered download calls, each paired with the boolean result of
`download_and_extract_file` (which the source never inspects), and the
version written back by `update_version_in_config`, if any. -/
structure SyncResult where
  downloads : List (RemoteAsset × Bool)
  versionWrite : Option String
deriving DecidableEq

/-- Model of the decision logic of `download_releases_from_github`
(lines 302-339).  `ok` is the per-asset result of
`download_and_extract_file`; `latest` is the JSON of
`/releases/latest`; `releases` is the JSON list of `/releases`.
If the local version has no digit, the latest release's assets are
handled and no version is written (lines 304-309).  Otherwise, with
`stable_version` the local version is compared to the latest tag
(lines 312-324), else to `releases[0]` (lines 326-339); on inequality
the assets are handled and then the version is written
unconditionally. -/
def download_releases_from_github (ok : RemoteAsset → Bool) (version : String)
    (stable_version : Bool) (files : Option (List String))
    (latest : RemoteRelease) (releases : List RemoteRelease) : SyncResult :=
  if has_digit version = false then
    ⟨(handle_assets files latest.assets).map (fun a => (a, ok a)), none⟩
  else if stable_version then
    if version = latest.tag_name then
      ⟨[], none⟩
    else
      ⟨(handle_assets files latest.assets).map (fun a => (a, ok a)),
        some latest.tag_name⟩
  else
    match releases with
    | [] => ⟨[], none⟩
    | r0 :: _ =>
      if version = r0.tag_name then
        ⟨[], none⟩
      else
        ⟨(handle_assets files r0.assets).map (fun a => (a, ok a)),
          some r0.tag_name⟩

/-- State of the download target before one run of the pre-download
phase of `download_and_extract_file` (lines 634-648).  `targetExists`
is `os.path.isfile(file_save_path)`, `staleExists` is
`os.path.isfile(older_version_file_path)`, `targetLocked` is the
result of the append-mode probe `is_file_locked` (lines 463-477), and
`renameOk` says whether the `os.rename` inside `rename_file`
(lines 479-491) would succeed on this filesystem. -/
structure FileState where
  targetExists : Bool
  staleExists : Bool
  targetLocked : Bool
  renameOk : Bool
deriving DecidableEq

/-- Outcome of the pre-download phase: whether the target and the
stale sibling exist afterwards, and whether a rename was attempted
and succeeded. -/
structure PrepResult where
  targetExists : Bool
  staleExists : Bool
  renameAttempted : Bool
  renameSucceeded : Bool
deriving DecidableEq

/-- Model of the pre-download phase of `download_and_extract_file`
(lines 637-645): first the stale sibling is deleted when present
(line 638-639, best effort); then, when the target file exists and the
append probe reports it locked, `rename_file` is called; `rename_file`
logs and swallows a rename failure (lines 487-491), so on failure the
target stays in place and control continues. -/
def prepare_for_write (s : FileState) : PrepResult :=
  if s.targetExists then
    if s.targetLocked then
      if s.renameOk then
        ⟨false, true, true, true⟩
      else
        ⟨true, false, true, false⟩
    else
      ⟨true, false, false, false⟩
  else
    ⟨false, false, false, false⟩

/-- Observable control flow of one `download_and_extract_file` call on
an existing state: after `prepare_for_write`, line 648 always invokes
`download_file`, which opens `file_save_path` for writing; the flag
`writeTargetOccupied` records whether the old (possibly busy) file is
still sitting at that path when the write is attempted. -/
structure AssetStep where
  prep : PrepResult
  downloadCalled : Bool
  writeTargetOccupied : Bool
deriving DecidableEq

/-- Model of `download_and_extract_file` up to the download call
(lines 634-648): the download is attempted unconditionally after the
preparation phase, whatever the preparation did. -/
def download_and_extract_step (s : FileState) : AssetStep :=
  let p := prepare_for_write s
  ⟨p, true, p.targetExists⟩

/-- A filesystem entry as seen by `extract_file`: a file with its
content, or a directory with its immediate children. -/
inductive FsEntry where
  | file (name : String) (content : String)
  | dir (name : String) (children : List FsEntry)

/-- Name of an entry. -/
def FsEntry.name : FsEntry → String
  | .file n _ => n
  | .dir n _ => n

/-- Whether an entry is a directory, as `os.path.isdir` reports. -/
def FsEntry.isDir : FsEntry → Bool
  | .file _ _ => false
  | .dir _ _ => true

/-- Immediate children of an entry (`os.listdir` of a directory). -/
def FsEntry.children : FsEntry → List FsEntry
  | .file _ _ => []
  | .dir _ cs => cs

/-- The directories among the scratch directory's immediate children
(lines 598-599). -/
def top_level_dirs (temp : List FsEntry) : List FsEntry :=
  temp.filter (fun e => e.isDir)

/-- The files among the scratch directory's immediate children
(lines 600-601). -/
def top_level_files (temp : List FsEntry) : List FsEntry :=
  temp.filter (fun e => !e.isDir)

/-- Model of `move_and_handle_conflict` (lines 581-589): a same-named
entry at the destination is deleted (recursively for a directory)
before the source entry is moved in. -/
def move_and_handle_conflict (dst : List FsEntry) (e : FsEntry) : List FsEntry :=
  dst.filter (fun d => decide (FsEntry.name d ≠ FsEntry.name e)) ++ [e]

/-- Move each source entry into the destination listing in order. -/
def mergeInto (dest : List FsEntry) (src : List FsEntry) : List FsEntry :=
  src.foldl move_and_handle_conflict dest

/-- The merge source chosen by `extract_file` (lines 597-618): when
the scratch directory holds exactly one directory and no file, that
directory's children are moved; otherwise the scratch directory's own
children are moved. -/
def mergeSource (temp : List FsEntry) : List FsEntry :=
  if (top_level_dirs temp).length = 1 ∧ (top_level_files temp).length = 0 then
    match (top_level_dirs temp).head? with
    | some d => d.children
    | none => temp
  else temp

/-- The destination listing after the merge phase of `extract_file`:
`temp` is the scratch directory's listing after extraction, `dest` the
destination directory's listing before the merge. -/
def extract_merge (temp : List FsEntry) (dest : List FsEntry) : List FsEntry :=
  mergeInto dest (mergeSource temp)

/-- Suffix test on strings, modelling Python's `str.endswith`. -/
def ends_with (s : String) (suffix : String) : Bool :=
  suffix.data.isSuffixOf s.data

/-- Whether `extract_to_temp` (lines 563-579) recognises the archive
format of a path, dispatching on the filename extension. -/
def supported_ext (filePath : String) : Bool :=
  ends_with filePath ".zip" || ends_with filePath ".7z" || ends_with filePath ".rar"

/-- Environment faults for one `extract_file` run: whether the archive
library raises while extracting (corrupt/unreadable archive), and
whether some `move_and_handle_conflict` call raises. -/
structure ExtractRun where
  corruptArchive : Bool
  moveFailure : Bool
deriving DecidableEq

/-- Scratch-directory side effects of one `extract_file` run: the
return value, whether `os.makedirs(temp_extract_path)` ran, and
whether the scratch directory was removed again before returning. -/
structure ExtractEffects where
  ok : Bool
  scratchCreated : Bool
  scratchRemovedBeforeReturn : Bool
deriving DecidableEq

/-- Control-flow model of `extract_file` (lines 591-632).  The scratch
directory is created at lines 592-593 before the format is examined.
An unsupported extension makes `extract_to_temp` return `False` and
`extract_file` return at line 595 without any cleanup.  A raising
extraction or a raising move is caught at line 630 and the function
returns `False`, again without cleanup.  Only the fully successful
path runs the cleanup loop of lines 620-627 that removes the scratch
directory. -/
def extract_file_effects (filePath : String) (env : ExtractRun) : ExtractEffects :=
  if supported_ext filePath = false then
    ⟨false, true, false⟩
  else if env.corruptArchive then
    ⟨false, true, false⟩
  else if env.moveFailure then
    ⟨false, true, false⟩
  else
    ⟨true, true, true⟩

theorem inner_match_eq_any (n : String) (fs : List String) :
    inner_match n fs = fs.any (fun p => fnmatch n p) := by
  induction fs with
  | nil => rfl
  | cons p ps ih =>
    by_cases h : fnmatch n p = true <;> simp [inner_match, h, ih]

theorem handle_assets_loop_eq_filter (fs : List String) (assets : List RemoteAsset) :
    handle_assets_loop fs assets =
      assets.filter (fun a => fs.any (fun p => fnmatch a.name p)) := by
  induction assets with
  | nil => rfl
  | cons a rest ih =>
    by_cases h : (fs.any (fun p => fnmatch a.name p)) = true <;>
      simp [handle_assets_loop, inner_match_eq_any, h, ih, List.filter_cons]

theorem handle_assets_nil (files : Option (List String)) :
    handle_assets files [] = [] := by
  rcases files with _ | (_ | ⟨p, ps⟩) <;> rfl

theorem sync_downloads_ignore_results (ok ok2 : RemoteAsset → Bool) (v : String)
    (st : Bool) (files : Option (List String)) (latest : RemoteRelease)
    (rels : List RemoteRelease) :
    (download_releases_from_github ok v st files latest rels).downloads.map Prod.fst =
      (download_releases_from_github ok2 v st files latest rels).downloads.map Prod.fst := by
  have hmap : ∀ (l : List RemoteAsset) (f : RemoteAsset → Bool),
      (l.map (fun a => (a, f a))).map Prod.fst = l := by
    intro l f
    induction l with
    | nil => rfl
    | cons a t ih => simp [ih]
  by_cases hd : has_digit v = false
  · simp [download_releases_from_github, hd, hmap]
  · cases st
    · cases rels with
      | nil => simp [download_releases_from_github, hd]
      | cons r0 rest =>
        by_cases he : v = r0.tag_name
        · subst he; simp [download_releases_from_github, hd]
        · simp [download_releases_from_github, hd, he, hmap]
    · by_cases he : v = latest.tag_name
      · subst he; simp [download_releases_from_github, hd]
      · simp [download_releases_from_github, hd, he, hmap]

theorem length_dirs_add_length_files (l : List FsEntry) :
    (top_level_dirs l).length + (top_level_files l).length = l.length := by
  induction l with
  | nil => rfl
  | cons e t ih =>
    unfold top_level_dirs top_level_files at ih ⊢
    cases he : e.isDir <;> simp [List.filter_cons, he] <;> omega

theorem wrap_cond_iff (temp : List FsEntry) :
    ((top_level_dirs temp).length = 1 ∧ (top_level_files temp).length = 0) ↔
      ∃ n cs, temp = [FsEntry.dir n cs] := by
  constructor
  · rintro ⟨h1, h2⟩
    have hlen : temp.length = 1 := by
      have := length_dirs_add_length_files temp
      omega
    rcases List.length_eq_one.mp hlen with ⟨e, rfl⟩
    cases e with
    | file n c =>
      exfalso
      simp [top_level_dirs, FsEntry.isDir, List.filter] at h1
    | dir n cs => exact ⟨n, cs, rfl⟩
  · rintro ⟨n, cs, rfl⟩
    simp [top_level_dirs, top_level_files, FsEntry.isDir, List.filter]

theorem mergeSource_wrapping (n : String) (cs : List FsEntry) :
    mergeSource [FsEntry.dir n cs] = cs := rfl

theorem mergeSource_not_wrapping (temp : List FsEntry)
    (h : ∀ (n : String) (cs : List FsEntry), temp ≠ [FsEntry.dir n cs]) :
    mergeSource temp = temp := by
  have hc : ¬((top_level_dirs temp).length = 1 ∧ (top_level_files temp).length = 0) := by
    intro hcond
    rcases (wrap_cond_iff temp).mp hcond with ⟨n, cs, heq⟩
    exact h n cs heq
  unfold mergeSource
  rw [if_neg hc]

theorem mergeInto_cons (dest : List FsEntry) (s : FsEntry) (rest : List FsEntry) :
    mergeInto dest (s :: rest) = mergeInto (move_and_handle_conflict dest s) rest := rfl

theorem mem_move_and_handle_conflict {dst : List FsEntry} {e x : FsEntry}
    (hx : x ∈ move_and_handle_conflict dst e) : x ∈ dst ∨ x = e := by
  rcases List.mem_append.mp hx with h | h
  · exact Or.inl (List.mem_filter.mp h).1
  · exact Or.inr (List.mem_singleton.mp h)

theorem mergeInto_name_ne (n : String) :
    ∀ (src dest : List FsEntry), (∀ d ∈ dest, FsEntry.name d ≠ n) →
      (∀ s ∈ src, FsEntry.name s ≠ n) →
      ∀ e ∈ mergeInto dest src, FsEntry.name e ≠ n := by
  intro src
  induction src with
  | nil => intro dest hd _ e he; exact hd e he
  | cons s rest ih =>
    intro dest hd hs e he
    rw [mergeInto_cons] at he
    refine ih (move_and_handle_conflict dest s) ?_ ?_ e he
    · intro d hdm
      rcases mem_move_and_handle_conflict hdm with h | h
      · exact hd d h
      · rw [h]; exact hs s (List.mem_cons_self s rest)
    · intro x hx
      exact hs x (List.mem_cons_of_mem s hx)

/-- C1: the claim states that the persisted version is updated only
after every selected asset has been processed successfully and that a
failing asset leaves the version unchanged.  The code violates this:
`handle_assets` discards the result of every `download_and_extract_file`
call, and `update_version_in_config` runs unconditionally after the
asset loop, so with local version "v1.0.0", latest stable tag "v1.1.0"
and a single asset whose download fails, the persisted version is
still advanced to "v1.1.0". -/
theorem C1_version_written_despite_asset_failure :
    download_releases_from_github (fun _ => false) "v1.0.0" true none
        ⟨"v1.1.0", [⟨"app.zip", "u"⟩]⟩ [] =
      ⟨[(⟨"app.zip", "u"⟩, false)], some "v1.1.0"⟩ := by
  decide

/-- C2: for every local version string containing no digit, the
release sync handles the newest remote release's assets
unconditionally — no version comparison, never a skip, and the same
behaviour for both values of `stable_version`. -/
theorem C2_no_digit_always_fetches_latest (ok : RemoteAsset → Bool)
    (version : String) (stable_version : Bool) (files : Option (List String))
    (latest : RemoteRelease) (releases : List RemoteRelease)
    (h : has_digit version = false) :
    download_releases_from_github ok version stable_version files latest releases =
      ⟨(handle_assets files latest.assets).map (fun a => (a, ok a)), none⟩ := by
  simp [download_releases_from_github, h]

/-- Witness for C2 at a concrete sentinel version. -/
theorem C2_no_digit_witness :
    has_digit "CI" = false ∧
      download_releases_from_github (fun _ => true) "CI" true none
          ⟨"v2", [⟨"app.zip", "u"⟩]⟩ [] =
        ⟨[(⟨"app.zip", "u"⟩, true)], none⟩ := by
  refine ⟨by decide, ?_⟩
  rw [C2_no_digit_always_fetches_latest (fun _ => true) "CI" true none
    ⟨"v2", [⟨"app.zip", "u"⟩]⟩ [] (by decide)]
  rfl

/-- C3: for a digit-bearing local version with `stable_version = true`,
the run skips (downloads nothing and writes no version) precisely when
the local version equals the latest release's tag, and any inequality
handles that release's assets and records its tag. -/
theorem C3_stable_skip_iff_tag_equal (ok : RemoteAsset → Bool) (version : String)
    (files : Option (List String)) (latest : RemoteRelease)
    (releases : List RemoteRelease) (h : has_digit version = true) :
    (((download_releases_from_github ok version true files latest releases).downloads = [] ∧
      (download_releases_from_github ok version true files latest releases).versionWrite = none) ↔
        version = latest.tag_name) ∧
    (version ≠ latest.tag_name →
      download_releases_from_github ok version true files latest releases =
        ⟨(handle_assets files latest.assets).map (fun a => (a, ok a)),
          some latest.tag_name⟩) := by
  constructor
  · constructor
    · intro hskip
      by_contra hne
      have hw : (download_releases_from_github ok version true files latest releases).versionWrite =
          some latest.tag_name := by
        simp [download_releases_from_github, h, hne]
      rw [hw] at hskip
      exact Option.noConfusion hskip.2
    · intro heq
      subst heq
      simp [download_releases_from_github, h]
  · intro hne
    simp [download_releases_from_github, h, hne]

/-- Witness for C3 on both sides of the equivalence. -/
theorem C3_stable_witness :
    ((download_releases_from_github (fun _ => true) "v1.0.0" true none
        ⟨"v1.0.0", [⟨"app.zip", "u"⟩]⟩ []).downloads = [] ∧
     (download_releases_from_github (fun _ => true) "v1.0.0" true none
        ⟨"v1.0.0", [⟨"app.zip", "u"⟩]⟩ []).versionWrite = none) ∧
    download_releases_from_github (fun _ => true) "v1.0.0" true none
        ⟨"v1.1.0", [⟨"app.zip", "u"⟩]⟩ [] =
      ⟨[(⟨"app.zip", "u"⟩, true)], some "v1.1.0"⟩ := by
  constructor
  · exact (C3_stable_skip_iff_tag_equal (fun _ => true) "v1.0.0" none
      ⟨"v1.0.0", [⟨"app.zip", "u"⟩]⟩ [] (by decide)).1.mpr rfl
  · rw [(C3_stable_skip_iff_tag_equal (fun _ => true) "v1.0.0" none
      ⟨"v1.1.0", [⟨"app.zip", "u"⟩]⟩ [] (by decide)).2 (by decide)]
    rfl

/-- C4: when the extracted scratch directory holds exactly one
immediate child and that child is a directory, the merge moves that
directory's children into the destination and the wrapping directory
itself does not appear there (when its name is neither a child name
nor already present at the destination); in every other case the
scratch directory's own immediate children are moved directly into
the destination. -/
theorem C4_wrapping_folder_merge (temp dest : List FsEntry) :
    (∀ (n : String) (cs : List FsEntry), temp = [FsEntry.dir n cs] →
      extract_merge temp dest = mergeInto dest cs ∧
      ((∀ c ∈ cs, FsEntry.name c ≠ n) → (∀ d ∈ dest, FsEntry.name d ≠ n) →
        ∀ e ∈ extract_merge temp dest, FsEntry.name e ≠ n)) ∧
    ((∀ (n : String) (cs : List FsEntry), temp ≠ [FsEntry.dir n cs]) →
      extract_merge temp dest = mergeInto dest temp) := by
  constructor
  · rintro n cs rfl
    constructor
    · rw [extract_merge, mergeSource_wrapping]
    · intro hcs hdest e he
      rw [extract_merge, mergeSource_wrapping] at he
      exact mergeInto_name_ne n cs dest hdest hcs e he
  · intro h
    rw [extract_merge, mergeSource_not_wrapping temp h]

/-- Witness for C4: the archive `topdir/a.txt`, `topdir/sub/b.txt`
merges without the wrapper, and two loose top-level files merge
directly. -/
theorem C4_wrapping_witness :
    extract_merge
        [FsEntry.dir "topdir"
          [FsEntry.file "a.txt" "A", FsEntry.dir "sub" [FsEntry.file "b.txt" "B"]]] [] =
      mergeInto [] [FsEntry.file "a.txt" "A", FsEntry.dir "sub" [FsEntry.file "b.txt" "B"]] ∧
    (∀ e ∈ extract_merge
        [FsEntry.dir "topdir"
          [FsEntry.file "a.txt" "A", FsEntry.dir "sub" [FsEntry.file "b.txt" "B"]]] [],
      FsEntry.name e ≠ "topdir") ∧
    extract_merge [FsEntry.file "a.txt" "A", FsEntry.file "b.txt" "B"] [] =
      mergeInto [] [FsEntry.file "a.txt" "A", FsEntry.file "b.txt" "B"] := by
  have h := (C4_wrapping_folder_merge
    [FsEntry.dir "topdir"
      [FsEntry.file "a.txt" "A", FsEntry.dir "sub" [FsEntry.file "b.txt" "B"]]] []).1
    "topdir" [FsEntry.file "a.txt" "A", FsEntry.dir "sub" [FsEntry.file "b.txt" "B"]] rfl
  refine ⟨h.1, h.2 ?_ ?_, ?_⟩
  · intro c hc
    fin_cases hc <;> decide
  · intro d hd
    exact absurd hd (List.not_mem_nil d)
  · refine (C4_wrapping_folder_merge
      [FsEntry.file "a.txt" "A", FsEntry.file "b.txt" "B"] []).2 ?_
    intro n cs heq
    simp at heq

/-- C5: the pre-download phase never renames when the target is
absent, never renames when the target exists and the append probe
succeeds (the later write overwrites in place), and when the target
exists and the probe fails (and the rename primitive itself works),
afterwards the original path is gone and the stale sibling exists. -/
theorem C5_prepare_for_write_spec (s : FileState) :
    (s.targetExists = false → (prepare_for_write s).renameAttempted = false) ∧
    (s.targetExists = true → s.targetLocked = false →
      (prepare_for_write s).renameAttempted = false ∧
      (prepare_for_write s).targetExists = true) ∧
    (s.targetExists = true → s.targetLocked = true → s.renameOk = true →
      (prepare_for_write s).targetExists = false ∧
      (prepare_for_write s).staleExists = true) := by
  rcases s with ⟨te, se, tl, ro⟩
  cases te <;> cases tl <;> cases ro <;> simp [prepare_for_write]

/-- Witness for C5 at all three concrete situations of the claim. -/
theorem C5_prepare_witness :
    (prepare_for_write ⟨false, true, false, true⟩).renameAttempted = false ∧
    (prepare_for_write ⟨true, false, false, true⟩).renameAttempted = false ∧
    (prepare_for_write ⟨true, false, true, true⟩).targetExists = false ∧
    (prepare_for_write ⟨true, false, true, true⟩).staleExists = true := by
  exact ⟨(C5_prepare_for_write_spec ⟨false, true, false, true⟩).1 rfl,
    ((C5_prepare_for_write_spec ⟨true, false, false, true⟩).2.1 rfl rfl).1,
    ((C5_prepare_for_write_spec ⟨true, false, true, true⟩).2.2 rfl rfl rfl).1,
    ((C5_prepare_for_write_spec ⟨true, false, true, true⟩).2.2 rfl rfl rfl).2⟩

/-- C6: the claim states that `extract_file` leaves no scratch
directory behind on any exit path and that an unsupported extension
has no side effect.  The code violates this: the scratch directory is
created before the format check, and only the fully successful run
removes it — the unsupported-format return, a raising (corrupt)
extraction and a raising move all leave `temp_extract` behind. -/
theorem C6_scratch_left_behind_on_failure_paths :
    extract_file_effects "app.tar.gz" ⟨false, false⟩ = ⟨false, true, false⟩ ∧
    extract_file_effects "app.zip" ⟨true, false⟩ = ⟨false, true, false⟩ ∧
    extract_file_effects "app.zip" ⟨false, true⟩ = ⟨false, true, false⟩ ∧
    extract_file_effects "app.zip" ⟨false, false⟩ = ⟨true, true, true⟩ := by
  decide

/-- C7: with no pattern list (or an empty one) selection is the
order-preserving identity on the assets; otherwise exactly the assets
whose name matches at least one glob pattern are selected, in input
order, each at most once even when several patterns match. -/
theorem C7_asset_selection (assets : List RemoteAsset) (files : Option (List String)) :
    ((files = none ∨ files = some []) → handle_assets files assets = assets) ∧
    (∀ fs : List String, files = some fs → fs ≠ [] →
      handle_assets files assets =
        assets.filter (fun a => fs.any (fun p => fnmatch a.name p))) := by
  constructor
  · rintro (rfl | rfl) <;> rfl
  · rintro fs rfl hne
    rcases fs with _ | ⟨p, ps⟩
    · exact absurd rfl hne
    · exact handle_assets_loop_eq_filter (p :: ps) assets

/-- Witness for C7: a name matching two patterns is selected once, a
non-matching name is dropped, order is preserved, and the none case
is the identity. -/
theorem C7_selection_witness :
    handle_assets (some ["*.zip", "a*"])
        [⟨"a.zip", "u1"⟩, ⟨"b.txt", "u2"⟩, ⟨"c.zip", "u3"⟩] =
      [⟨"a.zip", "u1"⟩, ⟨"b.txt", "u2"⟩, ⟨"c.zip", "u3"⟩].filter
        (fun a => (["*.zip", "a*"]).any (fun p => fnmatch a.name p)) ∧
    handle_assets none [⟨"a.zip", "u1"⟩, ⟨"b.txt", "u2"⟩] =
      [⟨"a.zip", "u1"⟩, ⟨"b.txt", "u2"⟩] ∧
    ([⟨"a.zip", "u1"⟩, ⟨"b.txt", "u2"⟩, ⟨"c.zip", "u3"⟩] : List RemoteAsset).filter
        (fun a => (["*.zip", "a*"]).any (fun p => fnmatch a.name p)) =
      [⟨"a.zip", "u1"⟩, ⟨"c.zip", "u3"⟩] := by
  refine ⟨(C7_asset_selection
      [⟨"a.zip", "u1"⟩, ⟨"b.txt", "u2"⟩, ⟨"c.zip", "u3"⟩]
      (some ["*.zip", "a*"])).2 ["*.zip", "a*"] rfl (by decide),
    (C7_asset_selection [⟨"a.zip", "u1"⟩, ⟨"b.txt", "u2"⟩] none).1 (Or.inl rfl),
    by decide⟩

/-- C8 counterexample: with local version "v1.0.0", stable mode and a
latest release "v1.1.0" carrying no assets, the run downloads nothing
at all — there is no fallback to a CI artifact anywhere in the code —
yet it still writes "v1.1.0" into the config. -/
theorem C8_no_artifact_fallback_counterexample :
    download_releases_from_github (fun _ => true) "v1.0.0" true none
        ⟨"v1.1.0", []⟩ [] =
      ⟨[], some "v1.1.0"⟩ := by
  decide

/-- C8 amended: for every release job whose chosen release has an
empty asset list, the orchestrator performs no download of any kind
(no release asset and no artifact), and on the digit-bearing unequal
stable path it still updates the persisted version to the release's
tag. -/
theorem C8_empty_assets_download_nothing (ok : RemoteAsset → Bool) (v : String)
    (stable : Bool) (files : Option (List String)) (tag : String)
    (rels : List RemoteRelease) :
    (download_releases_from_github ok v stable files ⟨tag, []⟩
        (⟨tag, []⟩ :: rels)).downloads = [] ∧
    (has_digit v = true → v ≠ tag →
      (download_releases_from_github ok v true files ⟨tag, []⟩
        (⟨tag, []⟩ :: rels)).versionWrite = some tag) := by
  constructor
  · by_cases hd : has_digit v = false
    · simp [download_releases_from_github, hd, handle_assets_nil]
    · cases stable
      · by_cases he : v = tag <;>
          simp [download_releases_from_github, hd, he, handle_assets_nil]
      · by_cases he : v = tag <;>
          simp [download_releases_from_github, hd, he, handle_assets_nil]
  · intro h2 hne
    simp [download_releases_from_github, h2, hne]

/-- Witness for the amended C8 at a concrete empty-assets release. -/
theorem C8_empty_assets_witness :
    (download_releases_from_github (fun _ => true) "v1.0.0" true (some ["*.zip"])
        ⟨"v1.1.0", []⟩ [⟨"v1.1.0", []⟩]).downloads = [] ∧
    (download_releases_from_github (fun _ => true) "v1.0.0" true (some ["*.zip"])
        ⟨"v1.1.0", []⟩ [⟨"v1.1.0", []⟩]).versionWrite = some "v1.1.0" := by
  have h := C8_empty_assets_download_nothing (fun _ => true) "v1.0.0" true
    (some ["*.zip"]) "v1.1.0" []
  exact ⟨h.1, h.2 (by decide) (by decide)⟩

/-- C9 counterexample: on a state where the target exists, the append
probe reports it busy and the quarantine rename fails, the code does
not abort the asset — `rename_file` swallows the error and line 648
still calls `download_file`, which opens the still-present busy target
for writing. -/
theorem C9_download_proceeds_counterexample :
    download_and_extract_step ⟨true, false, true, false⟩ =
      ⟨⟨true, false, true, false⟩, true, true⟩ := by
  decide

/-- C9 amended: when the quarantine rename of a busy target fails, the
failure is only logged: the target stays in place, the download is
still attempted and writes over the original path; and the asset loop
is unaffected by per-asset outcomes — the set of attempted downloads
never depends on the per-asset results. -/
theorem C9_rename_failure_download_proceeds (s : FileState)
    (ht : s.targetExists = true) (hl : s.targetLocked = true)
    (hr : s.renameOk = false) :
    (download_and_extract_step s).prep.renameAttempted = true ∧
    (download_and_extract_step s).prep.renameSucceeded = false ∧
    (download_and_extract_step s).prep.targetExists = true ∧
    (download_and_extract_step s).downloadCalled = true ∧
    (download_and_extract_step s).writeTargetOccupied = true ∧
    (∀ (ok ok2 : RemoteAsset → Bool) (v : String) (st : Bool)
        (files : Option (List String)) (latest : RemoteRelease)
        (rels : List RemoteRelease),
      (download_releases_from_github ok v st files latest rels).downloads.map Prod.fst =
        (download_releases_from_github ok2 v st files latest rels).downloads.map Prod.fst) := by
  rcases s with ⟨te, se, tl, ro⟩
  simp only at ht hl hr
  subst ht hl hr
  refine ⟨rfl, rfl, rfl, rfl, rfl, ?_⟩
  intro ok ok2 v st files latest rels
  exact sync_downloads_ignore_results ok ok2 v st files latest rels

/-- Witness for the amended C9 at a concrete busy state. -/
theorem C9_rename_failure_witness :
    (download_and_extract_step ⟨true, true, true, false⟩).downloadCalled = true ∧
    (download_and_extract_step ⟨true, true, true, false⟩).writeTargetOccupied = true := by
  have h := C9_rename_failure_download_proceeds ⟨true, true, true, false⟩ rfl rfl rfl
  exact ⟨h.2.2.2.1, h.2.2.2.2.1⟩

/-- C10: for a release job whose local version has no digit, the
persisted config is never written (the sentinel stays in place), in
contrast to the digit-bearing unequal path, which records the new
tag. -/
theorem C10_no_digit_never_writes_config (ok : RemoteAsset → Bool) (v : String)
    (stable : Bool) (files : Option (List String)) (latest : RemoteRelease)
    (rels : List RemoteRelease) (h : has_digit v = false) :
    (download_releases_from_github ok v stable files latest rels).versionWrite = none ∧
    (∀ v2 : String, has_digit v2 = true → v2 ≠ latest.tag_name →
      (download_releases_from_github ok v2 true files latest rels).versionWrite =
        some latest.tag_name) := by
  constructor
  · simp [download_releases_from_github, h]
  · intro v2 h2 hne
    simp [download_releases_from_github, h2, hne]

/-- Witness for C10 at the sentinel version "CI". -/
theorem C10_no_digit_witness :
    (download_releases_from_github (fun _ => true) "CI" true none
        ⟨"v2", [⟨"app.zip", "u"⟩]⟩ []).versionWrite = none ∧
    (download_releases_from_github (fun _ => true) "v1" true none
        ⟨"v2", [⟨"app.zip", "u"⟩]⟩ []).versionWrite = some "v2" := by
  have h := C10_no_digit_never_writes_config (fun _ => true) "CI" true none
    ⟨"v2", [⟨"app.zip", "u"⟩]⟩ [] (by decide)
  exact ⟨h.1, h.2 "v1" (by decide) (by decide)⟩
